import Mathlib

/-!
Verification of the ASCII chart renderer of the a107 library
(`a107/asciichart.py`): the wrapper `asciichart` and the modified
`asciichartpy` function `plot` that it calls.

Embedding conventions:
* Python floats are modelled as rationals (`ℚ`); every numeric value in the
  verified claims is exactly representable, so float rounding plays no role.
* A sample is `Option ℚ`: `none` models NaN (a missing value).
* Python exceptions are modelled with `Except Err`: each constructor of
  `Err` names one raise site of the source.
* Python list indexing `l[i]` with an out-of-range non-negative index, or an
  index below `-len l`, raises IndexError; a negative index `-len l ≤ i < 0`
  wraps to `len l + i`.  `pyIdx`/`pySet`/`pySet2` reproduce this.
* Python `round` rounds half to even and is modelled by `pyround`.
-/

set_option autoImplicit false

/-- Exceptions raised by `asciichart.py`, one constructor per raise site. -/
inductive Err where
  /-- `ValueError` at asciichart.py line 239: the min value cannot exceed the max value. -/
  | configurationError
  /-- Builtin `ValueError` from `min(...)`/`max(...)` over an empty sequence, raised while
  evaluating the (eagerly evaluated) default arguments of `cfg.get` in lines 232-233. -/
  | valueErrorEmptySeq
  /-- Builtin `ValueError` from `max([])` in `fix_asciichart` (line 43) when no line has a dot. -/
  | valueErrorMaxEmpty
  /-- `ValueError` at asciichart.py line 75: more lines than `maxlines`, suggesting that an
  explicit height be given in the configuration. -/
  | chartTooTall
  /-- Builtin `IndexError` from list indexing. -/
  | indexError
  /-- Builtin `ZeroDivisionError` from `i % 0`. -/
  | zeroDivisionError
  /-- Builtin `TypeError`. -/
  | typeError
  deriving DecidableEq, Repr

/-- A sample of a series: `none` models NaN (a missing value), `some q` a float. -/
abbrev F := Option ℚ

/-- The `series`/`sequences` argument: either a flat list of numbers or a list of
series (`isinstance(series[0], list)` distinguishes the two in the source). -/
inductive SeriesInput where
  | flat : List F → SeriesInput
  | nested : List (List F) → SeriesInput
  deriving DecidableEq

/-- The `cfg` dictionary of `plot`/`asciichart`.  A field is `none` when the key is
absent from the dictionary, in which case the source's `cfg.get` default applies. -/
structure Cfg where
  min? : Option ℚ := none
  max? : Option ℚ := none
  height? : Option ℚ := none
  offset? : Option ℤ := none
  /-- the `format` entry, as the label-formatting function the format string denotes -/
  fmt? : Option (ℚ → String) := none
  colors? : Option (List (Option String)) := none
  symbols? : Option (List (Option (List String))) := none

/-- Python `round`: round half to even (banker's rounding), to an integer. -/
def pyround (q : ℚ) : ℤ :=
  if q - (⌊q⌋ : ℚ) < 1/2 then ⌊q⌋
  else if 1/2 < q - (⌊q⌋ : ℚ) then ⌊q⌋ + 1
  else if ⌊q⌋ % 2 = 0 then ⌊q⌋ else ⌊q⌋ + 1

/-- `clamp` of asciichart.py lines 249-250: `min(max(n, minimum), maximum)`. -/
def clamp (minimum maximum n : ℚ) : ℚ := min (max n minimum) maximum

/-- `scaled` of asciichart.py lines 252-253:
`int(round(clamp(y) * ratio) - min2)`. -/
def scaled (minimum maximum ratioQ : ℚ) (min2 : ℤ) (y : ℚ) : ℤ :=
  pyround (clamp minimum maximum y * ratioQ) - min2

/-- Python `min` over a list (`none` for the empty list, where Python raises). -/
def listMin? {α : Type} [LinearOrder α] : List α → Option α
  | [] => none
  | h :: t => some (t.foldl min h)

/-- Python `max` over a list (`none` for the empty list, where Python raises). -/
def listMax? {α : Type} [LinearOrder α] : List α → Option α
  | [] => none
  | h :: t => some (t.foldl max h)

/-- Left-pad a string with `'0'` to width `w`. -/
def padZeros (w : ℕ) (s : String) : String :=
  String.mk (List.replicate (w - s.length) '0') ++ s

/-- Left-pad a string with spaces to width `w`. -/
def padLeftSp (w : ℕ) (s : String) : String :=
  String.mk (List.replicate (w - s.length) ' ') ++ s

/-- `n` spaces. -/
def spaces (n : ℕ) : String := String.mk (List.replicate n ' ')

/-- Python fixed-point formatting with `prec` decimals right-aligned in `width`
characters (the `8.2f` and `8.0f` format specifications used by the source).
Rounding is half to even, which agrees with Python on every value that is
exactly representable, in particular on all values of the verified claims. -/
def fmtFixed (prec width : ℕ) (q : ℚ) : String :=
  let n := pyround (q * ((10 : ℚ) ^ prec))
  let a := n.natAbs
  let ip := a / 10 ^ prec
  let fp := a % 10 ^ prec
  let frac := if prec = 0 then "" else "." ++ padZeros prec (toString fp)
  padLeftSp width (((if n < 0 then "-" else "") ++ toString ip) ++ frac)

/-- The default label format of `plot`: format specification `8.2f` followed by
one space (the default `placeholder` of asciichart.py line 262). -/
def defaultFormat (q : ℚ) : String := fmtFixed 2 8 q ++ " "

/-- The label format denoted by the format string `8.0f` (no decimal point). -/
def fmtNoDot (q : ℚ) : String := fmtFixed 0 8 q

/-- Python `''.join` on a list of strings. -/
def strJoin (l : List String) : String := l.foldl (fun a b => a ++ b) ""

/-- Python `sep.join` on a list of strings. -/
def joinWith (sep : String) : List String → String
  | [] => ""
  | [a] => a
  | a :: b :: t => a ++ sep ++ joinWith sep (b :: t)

/-- Helper for `pySplitNl`: split a character list at every occurrence of `c`. -/
def splitCharAux (c : Char) : List Char → List (List Char)
  | [] => [[]]
  | a :: t =>
      let r := splitCharAux c t
      if a = c then [] :: r
      else (a :: r.headD []) :: r.tail

/-- Python `text.split` with separator newline (an empty string yields one
empty piece, exactly as in Python). -/
def pySplitNl (s : String) : List String :=
  (splitCharAux '\n' s.toList).map (fun l => String.mk l)

/-- Python whitespace, as stripped by `str.rstrip`. -/
def isPySpace (c : Char) : Bool :=
  c = ' ' || c = '\t' || c = '\n' || c = '\r' || c = '\x0b' || c = '\x0c'

/-- Python `str.rstrip` with no argument: drop trailing whitespace. -/
def pyRstrip (s : String) : String :=
  String.mk (((s.toList.reverse).dropWhile isPySpace).reverse)

/-- Whether a Python `line.index(".")` would succeed: the line contains a dot. -/
def hasDot (s : String) : Bool := s.toList.contains '.'

/-- Python `line.index(".")`: index of the first dot (meaningful when `hasDot`). -/
def dotIndex (s : String) : ℕ := s.toList.indexOf '.'

/-! ### The character grid (`result` in the source) -/

/-- The mutable `result` grid: a list of rows, each a list of cells.  A cell is a
string because a label occupies a single cell (line 270 of the source). -/
abbrev Grid := List (List String)

/-- Python list-index resolution: in-range indices are kept, negative indices
with `-len ≤ i < 0` wrap to `len + i`, anything else is an IndexError. -/
def pyIdx (n : ℕ) (i : ℤ) : Option ℕ :=
  if 0 ≤ i ∧ i < (n : ℤ) then some i.toNat
  else if 0 ≤ i + (n : ℤ) ∧ i < 0 then some (i + (n : ℤ)).toNat
  else none

/-- Python `l[k]` for a non-negative literal index `k` (IndexError when out of range). -/
def pyGet {α : Type} (l : List α) (k : ℕ) : Except Err α :=
  match l.get? k with
  | some v => .ok v
  | none => .error .indexError

/-- Python `l[i] = v` on a list. -/
def pySet {α : Type} (l : List α) (i : ℤ) (v : α) : Except Err (List α) :=
  match pyIdx l.length i with
  | some k => .ok (l.set k v)
  | none => .error .indexError

/-- Python `result[r][c] = v` on the grid: index the row, then assign the cell. -/
def pySet2 (g : Grid) (r c : ℤ) (v : String) : Except Err Grid :=
  match pyIdx g.length r with
  | some k => (pySet (g.getD k []) c v).map (fun row => g.set k row)
  | none => .error .indexError

/-- The cell of a grid at (in-range, non-negative) row `r` and column `c`. -/
def getCell (g : Grid) (r c : ℤ) : String := (g.getD r.toNat []).getD c.toNat " "

/-- The pure effect of an in-range `result[r][c] = v`. -/
def gridSet (g : Grid) (r c : ℤ) (v : String) : Grid :=
  g.set r.toNat ((g.getD r.toNat []).set c.toNat v)

/-- `g` has `nr` rows of `nc` cells each. -/
def GridDims (g : Grid) (nr nc : ℕ) : Prop :=
  g.length = nr ∧ ∀ i, i < nr → (g.getD i []).length = nc

/-! ### The `plot` pipeline -/

/-- `default_symbols` of asciichart.py line 235. -/
def defaultSymbols : List String :=
  ["┼", "┤", "╶", "╴", "─", "╰", "╭", "╮", "╯", "│"]

/-- ANSI reset, the module-level `reset` of the source. -/
def ansiReset : String := "\x1b[0m"

/-- `colored` of asciichart.py lines 144-148. -/
def colored (char : String) (color : Option String) : String :=
  match color with
  | none => char
  | some c => c ++ char ++ ansiReset

/-- The finite samples of all series in order:
`filter(_isnum, [j for i in series for j in i])` of lines 232-233. -/
def flatFinite (series : List (List F)) : List ℚ :=
  (series.flatten).filterMap id

/-- The scale parameters computed by `plot` in lines 232-260. -/
structure ScaleParams where
  minimum : ℚ
  maximum : ℚ
  interval : ℚ
  offset : ℤ
  height : ℚ
  ratioQ : ℚ
  min2 : ℤ
  max2 : ℤ
  rows : ℤ
  width : ℤ
  deriving DecidableEq

/-- Lines 232-260 of asciichart.py.  Python evaluates the default argument of
`cfg.get('min', min(filter(...)))` eagerly, so an input with no finite sample
raises the empty-sequence `ValueError` even when `cfg` supplies both bounds;
`minimum > maximum` raises the configuration error.  `NAME_ratio` of line 244
is the field `ratioQ`. -/
def mkScale (series : List (List F)) (cfg : Cfg) : Except Err ScaleParams :=
  match listMin? (flatFinite series), listMax? (flatFinite series) with
  | some obsMin, some obsMax =>
      let minimum := cfg.min?.getD obsMin
      let maximum := cfg.max?.getD obsMax
      if minimum > maximum then .error .configurationError
      else
        let interval := maximum - minimum
        let offset := cfg.offset?.getD 3
        let height := cfg.height?.getD interval
        let ratioQ := if interval > 0 then height / interval else 1
        let min2 := ⌊minimum * ratioQ⌋
        let max2 := ⌈maximum * ratioQ⌉
        .ok { minimum := minimum, maximum := maximum, interval := interval,
              offset := offset, height := height, ratioQ := ratioQ,
              min2 := min2, max2 := max2, rows := max2 - min2,
              width := (series.foldl (fun w s => max w (s.length : ℤ)) 0) + offset }
  | _, _ => .error .valueErrorEmptySeq

/-- The number of rows of the `result` grid: `rows + 1` (line 264). -/
def numRows (p : ScaleParams) : ℕ := (p.rows + 1).toNat

/-- Line 264: `result = [[' '] * width for i in range(rows + 1)]`. -/
def emptyGrid (p : ScaleParams) : Grid :=
  List.replicate (numRows p) (List.replicate p.width.toNat " ")

/-- The integers `a, a+1, ..., b-1` (Python `range(a, b)`). -/
def intRange (a b : ℤ) : List ℤ :=
  (List.range (b - a).toNat).map (fun (k : ℕ) => a + (k : ℤ))

/-- The two writes of one iteration of the axis-and-labels loop (lines 270-271):
place the label at column `max(offset - len(label), 0)` of row `y - min2`, then
the tick (`axissymbols = default_symbols`: `┼` on the quantized zero row, `┤`
elsewhere) at column `offset - 1`. -/
def axisWrite (p : ScaleParams) (g : Grid) (y : ℤ) (label : String) :
    Except Err Grid :=
  pySet2 g (y - p.min2) (max (p.offset - (label.length : ℤ)) 0) label >>= fun g =>
  pySet2 g (y - p.min2) (p.offset - 1) (if y = 0 then "┼" else "┤")

/-- One iteration of the axis-and-labels loop, lines 268-271, with the label of
line 269: `placeholder.format(maximum - ((y - min2) * interval / (rows if rows
else 1)))`. -/
def axisStep (placeholder : ℚ → String) (p : ScaleParams) (g : Grid) (y : ℤ) :
    Except Err Grid :=
  axisWrite p g y (placeholder
    (p.maximum - (((y - p.min2 : ℤ) : ℚ) * p.interval /
      (if p.rows = 0 then 1 else (p.rows : ℚ)))))

/-- The axis-and-labels loop of lines 268-271: `for y in range(min2, max2 + 1)`. -/
def axisPass (placeholder : ℚ → String) (p : ScaleParams) (g : Grid) :
    Except Err Grid :=
  (intRange p.min2 (p.max2 + 1)).foldlM (axisStep placeholder p) g

/-- Lines 274-276: a tick mark across the y-axis at the first value of the first
series.  `series[0][0]` raises IndexError when the first series is empty. -/
def firstTick (series : List (List F)) (sc : ℚ → ℤ) (p : ScaleParams) (g : Grid) :
    Except Err Grid :=
  match series with
  | [] => .error .indexError
  | s0 :: _ =>
    match s0 with
    | [] => .error .indexError
    | d0 :: _ =>
      match d0 with
      | none => .ok g
      | some v => pySet2 g (p.rows - sc v) (p.offset - 1) "┼"

/-- Python `l[i % len(l)]`; on an empty list `i % 0` raises ZeroDivisionError. -/
def pyModGet {α : Type} (l : List α) (i : ℕ) : Except Err α :=
  match l.get? (i % l.length) with
  | some v => .ok v
  | none => .error .zeroDivisionError

/-- Lines 282-283: the symbol set of series `i` is `symbolss[i % len(symbolss)]`,
and an entry of `None` means the default ten-glyph palette. -/
def seriesSymbols (symbolss : List (Option (List String))) (i : ℕ) :
    Except Err (List String) :=
  match pyModGet symbolss i with
  | .ok none => .ok defaultSymbols
  | .ok (some s) => .ok s
  | .error e => .error e

/-- Lines 303-315: draw the connection between two finite samples with
quantized rows `y0` (left) and `y1` (right), all in column `x + offset`. -/
def drawLine (symbols : List String) (color : Option String)
    (rows offset : ℤ) (x : ℕ) (y0 y1 : ℤ) (g : Grid) : Except Err Grid :=
  if y0 = y1 then do
    let s4 ← pyGet symbols 4
    pySet2 g (rows - y0) ((x : ℤ) + offset) (colored s4 color)
  else do
    let a ← pyGet symbols (if y0 > y1 then 5 else 6)
    let g ← pySet2 g (rows - y1) ((x : ℤ) + offset) (colored a color)
    let b ← pyGet symbols (if y0 > y1 then 7 else 8)
    let g ← pySet2 g (rows - y0) ((x : ℤ) + offset) (colored b color)
    (intRange (min y0 y1 + 1) (max y0 y1)).foldlM (fun g y => do
        let s9 ← pyGet symbols 9
        pySet2 g (rows - y) ((x : ℤ) + offset) (colored s9 color)) g

/-- The body of the adjacent-pair loop, lines 288-315, for the pair
`(d0, d1) = (series[i][x], series[i][x+1])`.  Every write of this body goes to
column `x + offset` (the left sample's column). -/
def drawPair (symbols : List String) (color : Option String) (sc : ℚ → ℤ)
    (rows offset : ℤ) (x : ℕ) (d0 d1 : F) (g : Grid) : Except Err Grid :=
  match d0, d1 with
  | none, none => .ok g
  | none, some v1 => do
      let s2 ← pyGet symbols 2
      pySet2 g (rows - sc v1) ((x : ℤ) + offset) (colored s2 color)
  | some v0, none => do
      let s3 ← pyGet symbols 3
      pySet2 g (rows - sc v0) ((x : ℤ) + offset) (colored s3 color)
  | some v0, some v1 => drawLine symbols color rows offset x (sc v0) (sc v1) g

/-- The body of the per-series loop, lines 278-324, for series index `i`:
fetch the color and symbol set by modulo cycling, then either plot isolated
points (single-glyph palette, lines 316-324) or draw connectors over the
adjacent pairs (lines 287-315). -/
def seriesStep (series : List (List F)) (colors : List (Option String))
    (symbolss : List (Option (List String))) (sc : ℚ → ℤ) (p : ScaleParams)
    (g : Grid) (i : ℕ) : Except Err Grid :=
  pyModGet colors i >>= fun color =>
  seriesSymbols symbolss i >>= fun symbols =>
  if symbols.length = 1 then
    (List.range (series.getD i []).length).foldlM (fun g x =>
      match (series.getD i []).getD x none with
      | none => .ok g
      | some v =>
          pyGet symbols 0 >>= fun c =>
          pySet2 g (p.rows - sc v) ((x : ℤ) + p.offset) (colored c color)) g
  else
    (List.range ((series.getD i []).length - 1)).foldlM (fun g x =>
      drawPair symbols color sc p.rows p.offset x ((series.getD i []).getD x none)
        ((series.getD i []).getD (x + 1) none) g) g

/-- The per-series loop of lines 278-324. -/
def seriesPass (series : List (List F)) (colors : List (Option String))
    (symbolss : List (Option (List String))) (sc : ℚ → ℤ) (p : ScaleParams)
    (g : Grid) : Except Err Grid :=
  (List.range series.length).foldlM (seriesStep series colors symbolss sc p) g

/-- Line 326: join each row, strip trailing whitespace, join rows with newlines. -/
def renderGrid (g : Grid) : String :=
  joinWith "\n" (g.map (fun row => pyRstrip (strJoin row)))

/-- The body of `plot` after the early returns, asciichart.py lines 228-326,
with `series` already a list of series.  `cfg.get` defaults: colors `[None]`
(line 230), symbols `[default_symbols]` (line 236), format `8.2f` plus a
space (line 262). -/
def plotMulti (series : List (List F)) (cfg : Cfg) : Except Err String :=
  mkScale series cfg >>= fun p =>
  axisPass (cfg.fmt?.getD defaultFormat) p (emptyGrid p) >>= fun g =>
  firstTick series (scaled p.minimum p.maximum p.ratioQ p.min2) p g >>= fun g =>
  seriesPass series (cfg.colors?.getD [none]) (cfg.symbols?.getD [some defaultSymbols])
    (scaled p.minimum p.maximum p.ratioQ p.min2) p g >>= fun g =>
  .ok (renderGrid g)

/-- `plot` of asciichart.py lines 150-326.  Empty input returns `''`
(line 219-220); a flat series that is all NaN returns `''` (lines 222-224);
a flat series is wrapped into a singleton list of series (line 226). -/
def plot (input : SeriesInput) (cfg : Cfg) : Except Err String :=
  match input with
  | .flat s =>
      if s.length = 0 then .ok ""
      else if s.all (fun d => d.isNone) then .ok ""
      else plotMulti [s] cfg
  | .nested ss =>
      if ss.length = 0 then .ok "" else plotMulti ss cfg

/-! ### The `asciichart` wrapper (asciichart.py lines 6-89) -/

instance {ε α : Type} [DecidableEq ε] [DecidableEq α] : DecidableEq (Except ε α)
  | .ok a, .ok b => if h : a = b then .isTrue (by rw [h]) else .isFalse (by simp [h])
  | .ok _, .error _ => .isFalse (by simp)
  | .error _, .ok _ => .isFalse (by simp)
  | .error a, .error b => if h : a = b then .isTrue (by rw [h]) else .isFalse (by simp [h])

/-- Lines 67-69 of `asciichart`: when `sequences` is a non-empty list whose
first element has `__len__` (that is, a list of series), each element
`sequences[i]` is reassigned in place, on the caller's list, to the copy
`list(sequences[i])`.  A list copy has the same contents, so in value
semantics the copy is the identity; the second component counts the element
assignments performed on the caller's object.  (A tuple argument, on which
the assignment would raise a TypeError, is not modelled.) -/
def convertSequences : SeriesInput → SeriesInput × ℕ
  | .flat s => (.flat s, 0)
  | .nested ss =>
      if ss.length > 0 then (.nested (ss.map (fun x => x)), ss.length)
      else (.nested ss, 0)

/-- The contents of the caller's `sequences` after `asciichart` ran lines 67-69. -/
def asciichartSeqsAfter (sequences : SeriesInput) : SeriesInput :=
  (convertSequences sequences).1

/-- How many `sequences[i] = list(sequences[i])` assignments `asciichart`
performs on the caller's `sequences` object (lines 67-69). -/
def asciichartSeqWrites (sequences : SeriesInput) : ℕ :=
  (convertSequences sequences).2

/-- `fix_asciichart` of lines 42-51: left-pad every line containing a dot so
that all dots align with the rightmost dot.  `max` over an empty sequence
(no line contains a dot) raises a builtin `ValueError`. -/
def fix_asciichart (lines : List String) : Except Err String :=
  match listMax? ((lines.filter (fun l => hasDot l)).map dotIndex) with
  | none => .error .valueErrorMaxEmpty
  | some dotidx =>
      .ok (joinWith "\n" (lines.map (fun line =>
        if hasDot line then spaces (dotidx - dotIndex line) ++ line else line)))

/-- `colored.attr('reset')`, appended after a legend color. -/
def attrReset : String := "\x1b[0m"

/-- How Python's f-string renders the color entry: `None` prints as the text
`None`, a string prints as itself. -/
def pyStr (o : Option String) : String :=
  match o with
  | none => "None"
  | some s => s

/-- `get_color` of lines 53-57: the pair (color prefix, reset suffix) for the
legend entry of series `i`. -/
def get_color (cfg : Cfg) (i : ℕ) : String × String :=
  match cfg.colors? with
  | none => ("", "")
  | some colors =>
      if i < colors.length then (pyStr (colors.getD i none), attrReset)
      else ("", "")

/-- `get_legendsymbol` of lines 59-64: the first glyph of the symbol set of
series `i`, or the default dash; `symbols[i][0]` on an empty symbol set
raises IndexError. -/
def get_legendsymbol (cfg : Cfg) (i : ℕ) : Except Err String :=
  match cfg.symbols? with
  | none => .ok "─"
  | some symbols =>
      if i < symbols.length then
        match symbols.getD i none with
        | none => .ok "─"
        | some pal =>
            match pal.head? with
            | none => .error .indexError
            | some g => .ok g
      else .ok "─"

/-- One legend line (line 82): color prefix, the legend symbol twice, the reset
suffix, a space, and the legend text. -/
def legendLine (cfg : Cfg) (i : ℕ) (txt : String) : Except Err String := do
  let cr := get_color cfg i
  let ls ← get_legendsymbol cfg i
  .ok (cr.1 ++ ls ++ ls ++ cr.2 ++ " " ++ txt)

/-- Lines 85-87: prefix every line with `indent` spaces when `indent > 0`. -/
def indentText (indent : ℕ) (text : String) : String :=
  if indent > 0 then
    joinWith "\n" ((pySplitNl text).map (fun l => spaces indent ++ l))
  else text

/-- Lines 77-83: append one legend line per legend entry below the chart. -/
def legendBlock (cfg : Cfg) (legend : Option (List String)) (text : String) :
    Except Err String :=
  match legend with
  | none => .ok text
  | some lg =>
      (lg.enum.mapM (fun pr => legendLine cfg pr.1 pr.2)) >>= fun ll =>
      .ok (text ++ "\n" ++ joinWith "\n" ll)

/-- `asciichart` of asciichart.py lines 6-89: run lines 67-69 on `sequences`,
call `plot`, raise the too-tall `ValueError` when the text has more than
`maxlines` lines, align the label dots, append the legend, indent. -/
def asciichart (sequences : SeriesInput) (cfg? : Option Cfg) (maxlines : ℕ)
    (legend : Option (List String)) (indent : ℕ) : Except Err String :=
  plot (convertSequences sequences).1 (cfg?.getD {}) >>= fun text =>
  if (pySplitNl text).length > maxlines then .error .chartTooTall
  else
    fix_asciichart (pySplitNl text) >>= fun text =>
    legendBlock (cfg?.getD {}) legend text >>= fun text =>
    .ok (indentText indent text)

/-! ### Arithmetic lemmas about the quantization helpers -/

lemma floor_le_pyround (q : ℚ) : ⌊q⌋ ≤ pyround q := by
  unfold pyround; split_ifs <;> omega

lemma pyround_le_floor_add_one (q : ℚ) : pyround q ≤ ⌊q⌋ + 1 := by
  unfold pyround; split_ifs <;> omega

lemma pyround_le_ceil (q : ℚ) : pyround q ≤ ⌈q⌉ := by
  have hfc : ⌊q⌋ ≤ ⌈q⌉ := Int.floor_le_ceil q
  have hkey : ∀ h : (0 : ℚ) < q - (⌊q⌋ : ℚ), ⌊q⌋ + 1 ≤ ⌈q⌉ := by
    intro h
    have : (⌊q⌋ : ℚ) < q := by linarith
    exact Int.add_one_le_iff.mpr (Int.lt_ceil.mpr this)
  unfold pyround
  split_ifs with h1 h2 h3
  · exact hfc
  · exact hkey (by linarith)
  · exact hfc
  · exact hkey (by linarith)

lemma pyround_mono {a b : ℚ} (h : a ≤ b) : pyround a ≤ pyround b := by
  have hf : ⌊a⌋ ≤ ⌊b⌋ := Int.floor_mono h
  rcases lt_or_eq_of_le hf with hlt | heq
  · calc pyround a ≤ ⌊a⌋ + 1 := pyround_le_floor_add_one a
      _ ≤ ⌊b⌋ := hlt
      _ ≤ pyround b := floor_le_pyround b
  · have hr : a - (⌊a⌋ : ℚ) ≤ b - (⌊a⌋ : ℚ) := by linarith
    unfold pyround
    rw [← heq]
    split_ifs <;> first | omega | linarith

lemma le_clamp (minimum maximum y : ℚ) (h : minimum ≤ maximum) :
    minimum ≤ clamp minimum maximum y := by
  unfold clamp
  exact le_min (le_max_right y minimum) h

lemma clamp_le (minimum maximum y : ℚ) : clamp minimum maximum y ≤ maximum :=
  min_le_right _ _

lemma clamp_of_le (minimum maximum y : ℚ) (h : minimum ≤ maximum)
    (hy : y ≤ minimum) : clamp minimum maximum y = minimum := by
  unfold clamp
  rw [max_eq_right hy, min_eq_left h]

lemma clamp_of_ge (minimum maximum y : ℚ) (h : minimum ≤ maximum)
    (hy : maximum ≤ y) : clamp minimum maximum y = maximum := by
  unfold clamp
  rw [max_eq_left (h.trans hy), min_eq_right hy]

/-- Every quantized sample lies between the quantized bounds `min2` and `max2`
(computed with a non-negative ratio). -/
lemma scaled_bounds (minimum maximum r : ℚ) (hm : minimum ≤ maximum)
    (hr : 0 ≤ r) (y : ℚ) :
    0 ≤ scaled minimum maximum r ⌊minimum * r⌋ y ∧
      scaled minimum maximum r ⌊minimum * r⌋ y ≤ ⌈maximum * r⌉ - ⌊minimum * r⌋ := by
  have h1 : minimum * r ≤ clamp minimum maximum y * r :=
    mul_le_mul_of_nonneg_right (le_clamp minimum maximum y hm) hr
  have h2 : clamp minimum maximum y * r ≤ maximum * r :=
    mul_le_mul_of_nonneg_right (clamp_le minimum maximum y) hr
  have hlo : ⌊minimum * r⌋ ≤ pyround (clamp minimum maximum y * r) :=
    le_trans (Int.floor_mono h1) (floor_le_pyround _)
  have hhi : pyround (clamp minimum maximum y * r) ≤ ⌈maximum * r⌉ :=
    le_trans (pyround_le_ceil _) (Int.ceil_mono h2)
  unfold scaled
  omega

/-! ### Lemmas about Python `min`/`max` over a list -/

lemma foldl_min_le_init {α : Type} [LinearOrder α] (t : List α) (h : α) :
    t.foldl min h ≤ h := by
  induction t generalizing h with
  | nil => exact le_refl h
  | cons a t ih => exact le_trans (ih (min h a)) (min_le_left h a)

lemma init_le_foldl_max {α : Type} [LinearOrder α] (t : List α) (h : α) :
    h ≤ t.foldl max h := by
  induction t generalizing h with
  | nil => exact le_refl h
  | cons a t ih => exact le_trans (le_max_left h a) (ih (max h a))

lemma listMin?_le_listMax? {l : List ℚ} {a b : ℚ}
    (ha : listMin? l = some a) (hb : listMax? l = some b) : a ≤ b := by
  cases l with
  | nil => simp [listMin?] at ha
  | cons h t =>
      simp [listMin?] at ha
      simp [listMax?] at hb
      rw [← ha, ← hb]
      exact le_trans (foldl_min_le_init t h) (init_le_foldl_max t h)

lemma listMin?_isSome {l : List ℚ} (h : l ≠ []) : ∃ a, listMin? l = some a := by
  cases l with
  | nil => exact absurd rfl h
  | cons x t => exact ⟨t.foldl min x, rfl⟩

lemma listMax?_isSome {l : List ℚ} (h : l ≠ []) : ∃ a, listMax? l = some a := by
  cases l with
  | nil => exact absurd rfl h
  | cons x t => exact ⟨t.foldl max x, rfl⟩

/-! ### Lemmas about the width fold of line 257-260 -/

lemma le_wfold_init (l : List (List F)) (w : ℤ) :
    w ≤ l.foldl (fun a s => max a (s.length : ℤ)) w := by
  induction l generalizing w with
  | nil => exact le_refl w
  | cons s t ih => exact le_trans (le_max_left _ _) (ih (max w s.length))

lemma mem_le_wfold {l : List (List F)} {s : List F} (hs : s ∈ l) (w : ℤ) :
    (s.length : ℤ) ≤ l.foldl (fun a s => max a (s.length : ℤ)) w := by
  induction l generalizing w with
  | nil => cases hs
  | cons x t ih =>
      rcases List.mem_cons.mp hs with h | h
      · subst h
        exact le_trans (le_max_right _ _) (le_wfold_init t (max w s.length))
      · exact ih h (max w x.length)

/-! ### Lemmas about grid indexing -/

lemma set_oob {α : Type} (l : List α) (i : ℕ) (v : α) (h : l.length ≤ i) :
    l.set i v = l := by
  induction l generalizing i with
  | nil => rfl
  | cons a t ih =>
      cases i with
      | zero => simp at h
      | succ j =>
          simp only [List.length_cons] at h
          show a :: t.set j v = a :: t
          rw [ih j (by omega)]

lemma getD_set_self {α : Type} (l : List α) (i : ℕ) (v d : α)
    (h : i < l.length) : (l.set i v).getD i d = v := by
  induction l generalizing i with
  | nil => simp at h
  | cons a t ih =>
      cases i with
      | zero => rfl
      | succ j => exact ih j (by simpa using h)

lemma getD_set_ne {α : Type} (l : List α) (i j : ℕ) (v d : α) (h : i ≠ j) :
    (l.set i v).getD j d = l.getD j d := by
  induction l generalizing i j with
  | nil => rfl
  | cons a t ih =>
      cases i with
      | zero => cases j with
          | zero => exact absurd rfl h
          | succ j2 => rfl
      | succ i2 => cases j with
          | zero => rfl
          | succ j2 => exact ih i2 j2 (by omega)

lemma getD_replicate {α : Type} (n i : ℕ) (a d : α) (h : i < n) :
    (List.replicate n a).getD i d = a := by
  induction n generalizing i with
  | zero => omega
  | succ m ih =>
      cases i with
      | zero => rfl
      | succ j => exact ih j (by omega)

lemma pyIdx_of_range {n : ℕ} {i : ℤ} (h0 : 0 ≤ i) (h1 : i < (n : ℤ)) :
    pyIdx n i = some i.toNat := by
  unfold pyIdx
  rw [if_pos ⟨h0, h1⟩]

lemma pySet2_eq_gridSet (g : Grid) (r c : ℤ) (v : String)
    (hr0 : 0 ≤ r) (hr1 : r < (g.length : ℤ)) (hc0 : 0 ≤ c)
    (hc1 : c < ((g.getD r.toNat []).length : ℤ)) :
    pySet2 g r c v = .ok (gridSet g r c v) := by
  unfold pySet2 pySet gridSet
  rw [pyIdx_of_range hr0 hr1]
  simp only []
  rw [pyIdx_of_range hc0 hc1]
  rfl

lemma gridSet_dims {g : Grid} {nr nc : ℕ} (r c : ℤ) (v : String)
    (hd : GridDims g nr nc) : GridDims (gridSet g r c v) nr nc := by
  obtain ⟨hlen, hrow⟩ := hd
  constructor
  · unfold gridSet
    simp [hlen]
  · intro i hi
    unfold gridSet
    by_cases hir : i = r.toNat
    · by_cases hlt : r.toNat < g.length
      · rw [hir, getD_set_self _ _ _ _ hlt, List.length_set]
        exact hrow r.toNat (by omega)
      · rw [set_oob _ _ _ (by omega)]
        exact hrow i hi
    · rw [getD_set_ne _ _ _ _ _ (fun he => hir he.symm)]
      exact hrow i hi

lemma emptyGrid_dims (p : ScaleParams) :
    GridDims (emptyGrid p) (numRows p) p.width.toNat := by
  constructor
  · simp [emptyGrid]
  · intro i hi
    unfold emptyGrid
    rw [getD_replicate _ _ _ _ (by simpa [numRows] using hi)]
    simp

/-- Under the row/column bounds, `pySet2` succeeds and preserves the grid shape. -/
lemma pySet2_ok {g : Grid} {nr nc : ℕ} (r c : ℤ) (v : String)
    (hd : GridDims g nr nc) (hr0 : 0 ≤ r) (hr1 : r < (nr : ℤ))
    (hc0 : 0 ≤ c) (hc1 : c < (nc : ℤ)) :
    ∃ g', pySet2 g r c v = .ok g' ∧ GridDims g' nr nc := by
  obtain ⟨hlen, hrow⟩ := hd
  have hrowlen : (g.getD r.toNat []).length = nc :=
    hrow r.toNat (by omega)
  refine ⟨gridSet g r c v, ?_, gridSet_dims r c v ⟨hlen, hrow⟩⟩
  exact pySet2_eq_gridSet g r c v hr0 (by omega) hc0 (by omega)

lemma mem_intRange {a b y : ℤ} : y ∈ intRange a b ↔ a ≤ y ∧ y < b := by
  unfold intRange
  simp only [List.mem_map, List.mem_range]
  constructor
  · rintro ⟨k, hk, rfl⟩
    omega
  · intro h
    exact ⟨(y - a).toNat, by omega, by omega⟩

/-! ### A success-propagation lemma for the grid folds -/

lemma foldlM_ok_of_inv {α : Type} (P : Grid → Prop) (f : Grid → α → Except Err Grid)
    (l : List α) (g : Grid) (hg : P g)
    (hf : ∀ g' a, P g' → a ∈ l → ∃ g'', f g' a = .ok g'' ∧ P g'') :
    ∃ g'', l.foldlM f g = .ok g'' ∧ P g'' := by
  induction l generalizing g with
  | nil => exact ⟨g, rfl, hg⟩
  | cons a t ih =>
      obtain ⟨g1, h1, hP1⟩ := hf g a hg (List.mem_cons_self a t)
      obtain ⟨g2, h2, hP2⟩ :=
        ih g1 hP1 (fun g' b hP hb => hf g' b hP (List.mem_cons_of_mem a hb))
      refine ⟨g2, ?_, hP2⟩
      rw [List.foldlM_cons, h1]
      exact h2

lemma exceptBind_ok {α β : Type} (a : α) (f : α → Except Err β) :
    (Except.ok a >>= f) = f a := rfl

lemma exceptBind_err {α β : Type} (e : Err) (f : α → Except Err β) :
    ((Except.error e : Except Err α) >>= f) = .error e := rfl

lemma getD_mem {α : Type} {l : List α} {i : ℕ} (d : α) (h : i < l.length) :
    l.getD i d ∈ l := by
  induction l generalizing i with
  | nil => simp at h
  | cons a t ih =>
      cases i with
      | zero => exact List.mem_cons_self a t
      | succ j =>
          exact List.mem_cons_of_mem a (ih (by simpa using h))

/-- `drawLine` with the default palette succeeds and preserves the grid shape
when both rows are within bounds and the column is within bounds. -/
lemma drawLine_ok {g : Grid} {nr nc : ℕ} (color : Option String)
    (rows offset : ℤ) (x : ℕ) (y0 y1 : ℤ)
    (hd : GridDims g nr nc) (hnr : (nr : ℤ) = rows + 1)
    (hy0 : 0 ≤ y0 ∧ y0 ≤ rows) (hy1 : 0 ≤ y1 ∧ y1 ≤ rows)
    (hc0 : 0 ≤ (x : ℤ) + offset) (hc1 : (x : ℤ) + offset < (nc : ℤ)) :
    ∃ g', drawLine defaultSymbols color rows offset x y0 y1 g = .ok g' ∧
      GridDims g' nr nc := by
  by_cases heq : y0 = y1
  · obtain ⟨g', e, d⟩ := pySet2_ok (rows - y0) ((x : ℤ) + offset)
      (colored "─" color) hd (by omega) (by omega) hc0 hc1
    refine ⟨g', ?_, d⟩
    unfold drawLine
    rw [if_pos heq]
    exact e
  · obtain ⟨g1, e1, d1⟩ := pySet2_ok (rows - y1) ((x : ℤ) + offset)
      (colored (if y0 > y1 then "╰" else "╭") color) hd (by omega) (by omega) hc0 hc1
    obtain ⟨g2, e2, d2⟩ := pySet2_ok (rows - y0) ((x : ℤ) + offset)
      (colored (if y0 > y1 then "╮" else "╯") color) d1 (by omega) (by omega) hc0 hc1
    obtain ⟨g3, e3, d3⟩ := foldlM_ok_of_inv (fun g => GridDims g nr nc)
      (fun g y => do
        let s9 ← pyGet defaultSymbols 9
        pySet2 g (rows - y) ((x : ℤ) + offset) (colored s9 color))
      (intRange (min y0 y1 + 1) (max y0 y1)) g2 d2
      (by
        intro g' y hP hy
        rw [mem_intRange] at hy
        obtain ⟨g'', e, d⟩ := pySet2_ok (rows - y) ((x : ℤ) + offset)
          (colored "│" color) hP (by omega) (by omega) hc0 hc1
        exact ⟨g'', e, d⟩)
    refine ⟨g3, ?_, d3⟩
    unfold drawLine
    rw [if_neg heq]
    by_cases hgt : y0 > y1
    · simp only [if_pos hgt] at e1 e2 ⊢
      show (pyGet defaultSymbols 5 >>= fun a => pySet2 g (rows - y1) ((x : ℤ) + offset)
        (colored a color) >>= fun g => pyGet defaultSymbols 7 >>= fun b =>
        pySet2 g (rows - y0) ((x : ℤ) + offset) (colored b color) >>= fun g =>
        (intRange (min y0 y1 + 1) (max y0 y1)).foldlM (fun g y => do
          let s9 ← pyGet defaultSymbols 9
          pySet2 g (rows - y) ((x : ℤ) + offset) (colored s9 color)) g) = .ok g3
      rw [show pyGet defaultSymbols 5 = .ok "╰" from rfl, exceptBind_ok, e1,
        exceptBind_ok, show pyGet defaultSymbols 7 = .ok "╮" from rfl,
        exceptBind_ok, e2, exceptBind_ok]
      exact e3
    · simp only [if_neg hgt] at e1 e2 ⊢
      show (pyGet defaultSymbols 6 >>= fun a => pySet2 g (rows - y1) ((x : ℤ) + offset)
        (colored a color) >>= fun g => pyGet defaultSymbols 8 >>= fun b =>
        pySet2 g (rows - y0) ((x : ℤ) + offset) (colored b color) >>= fun g =>
        (intRange (min y0 y1 + 1) (max y0 y1)).foldlM (fun g y => do
          let s9 ← pyGet defaultSymbols 9
          pySet2 g (rows - y) ((x : ℤ) + offset) (colored s9 color)) g) = .ok g3
      rw [show pyGet defaultSymbols 6 = .ok "╭" from rfl, exceptBind_ok, e1,
        exceptBind_ok, show pyGet defaultSymbols 8 = .ok "╯" from rfl,
        exceptBind_ok, e2, exceptBind_ok]
      exact e3

/-- `drawPair` with the default palette succeeds and preserves the grid shape. -/
lemma drawPair_ok {g : Grid} {nr nc : ℕ} (color : Option String) (sc : ℚ → ℤ)
    (rows offset : ℤ) (x : ℕ) (d0 d1 : F)
    (hd : GridDims g nr nc) (hnr : (nr : ℤ) = rows + 1)
    (hsc : ∀ v, 0 ≤ sc v ∧ sc v ≤ rows)
    (hc0 : 0 ≤ (x : ℤ) + offset) (hc1 : (x : ℤ) + offset < (nc : ℤ)) :
    ∃ g', drawPair defaultSymbols color sc rows offset x d0 d1 g = .ok g' ∧
      GridDims g' nr nc := by
  cases d0 with
  | none =>
      cases d1 with
      | none => exact ⟨g, rfl, hd⟩
      | some v1 =>
          obtain ⟨h0, h1⟩ := hsc v1
          obtain ⟨g', e, d⟩ := pySet2_ok (rows - sc v1) ((x : ℤ) + offset)
            (colored "╶" color) hd (by omega) (by omega) hc0 hc1
          exact ⟨g', e, d⟩
  | some v0 =>
      cases d1 with
      | none =>
          obtain ⟨h0, h1⟩ := hsc v0
          obtain ⟨g', e, d⟩ := pySet2_ok (rows - sc v0) ((x : ℤ) + offset)
            (colored "╴" color) hd (by omega) (by omega) hc0 hc1
          exact ⟨g', e, d⟩
      | some v1 =>
          exact drawLine_ok color rows offset x (sc v0) (sc v1) hd hnr
            (hsc v0) (hsc v1) hc0 hc1

lemma axisWrite_ok {g : Grid} {nr nc : ℕ} (p : ScaleParams) (y : ℤ) (label : String)
    (hd : GridDims g nr nc) (hr0 : 0 ≤ y - p.min2) (hr1 : y - p.min2 < (nr : ℤ))
    (hoff : p.offset = 3) (hnc : 4 ≤ (nc : ℤ)) :
    ∃ g', axisWrite p g y label = .ok g' ∧ GridDims g' nr nc := by
  obtain ⟨g1, e1, d1⟩ := pySet2_ok (y - p.min2)
    (max (p.offset - (label.length : ℤ)) 0) label hd hr0 hr1 (le_max_right _ _)
    (by rw [hoff, max_lt_iff]; omega)
  obtain ⟨g2, e2, d2⟩ := pySet2_ok (y - p.min2) (p.offset - 1)
    (if y = 0 then "┼" else "┤") d1 hr0 hr1 (by rw [hoff]; omega) (by rw [hoff]; omega)
  refine ⟨g2, ?_, d2⟩
  unfold axisWrite
  rw [e1, exceptBind_ok]
  exact e2

lemma firstTick_ok {g : Grid} {nr nc : ℕ} (d0 : F) (t0 : List F)
    (rest : List (List F)) (sc : ℚ → ℤ) (p : ScaleParams)
    (hd : GridDims g nr nc) (hnr : (nr : ℤ) = p.rows + 1)
    (hsc : ∀ v, 0 ≤ sc v ∧ sc v ≤ p.rows) (hoff : p.offset = 3)
    (hnc : 4 ≤ (nc : ℤ)) :
    ∃ g', firstTick ((d0 :: t0) :: rest) sc p g = .ok g' ∧ GridDims g' nr nc := by
  cases d0 with
  | none => exact ⟨g, rfl, hd⟩
  | some v =>
      obtain ⟨h0, h1⟩ := hsc v
      obtain ⟨g', e, d⟩ := pySet2_ok (p.rows - sc v) (p.offset - 1) "┼" hd
        (by omega) (by omega) (by rw [hoff]; omega) (by rw [hoff]; omega)
      exact ⟨g', e, d⟩

lemma seriesStep_default_ok {g : Grid} {nr nc : ℕ} (series : List (List F))
    (sc : ℚ → ℤ) (p : ScaleParams) (i : ℕ)
    (hd : GridDims g nr nc) (hnr : (nr : ℤ) = p.rows + 1)
    (hsc : ∀ v, 0 ≤ sc v ∧ sc v ≤ p.rows) (hoff : p.offset = 3)
    (hwidth : ∀ s ∈ series, (s.length : ℤ) + 3 ≤ (nc : ℤ))
    (hi : i < series.length) :
    ∃ g', seriesStep series [none] [some defaultSymbols] sc p g i = .ok g' ∧
      GridDims g' nr nc := by
  have hcolor : pyModGet ([none] : List (Option String)) i = .ok none := by
    simp [pyModGet, Nat.mod_one]
  have hsym : seriesSymbols [some defaultSymbols] i = .ok defaultSymbols := by
    simp [seriesSymbols, pyModGet, Nat.mod_one]
  have hlen : ((series.getD i []).length : ℤ) + 3 ≤ (nc : ℤ) :=
    hwidth _ (getD_mem [] hi)
  obtain ⟨g', e, d⟩ := foldlM_ok_of_inv (fun g => GridDims g nr nc)
    (fun g x =>
      drawPair defaultSymbols none sc p.rows p.offset x
        ((series.getD i []).getD x none) ((series.getD i []).getD (x + 1) none) g)
    (List.range ((series.getD i []).length - 1)) g hd
    (by
      intro g' x hP hx
      rw [List.mem_range] at hx
      exact drawPair_ok none sc p.rows p.offset x _ _ hP hnr hsc
        (by rw [hoff]; omega) (by rw [hoff]; omega))
  refine ⟨g', ?_, d⟩
  unfold seriesStep
  rw [hcolor, exceptBind_ok, hsym, exceptBind_ok,
    if_neg (by decide : ¬(defaultSymbols.length = 1))]
  exact e

/-- Under the default configuration, `plotMulti` returns a string (raises
nothing) whenever the first series is non-empty and some sample is finite. -/
lemma plotMulti_default_ok (s0 : List F) (rest : List (List F))
    (h0 : s0 ≠ []) (hfin : flatFinite (s0 :: rest) ≠ []) :
    ∃ t, plotMulti (s0 :: rest) {} = .ok t := by
  obtain ⟨obsMin, hmin⟩ := listMin?_isSome hfin
  obtain ⟨obsMax, hmax⟩ := listMax?_isSome hfin
  have hle : obsMin ≤ obsMax := listMin?_le_listMax? hmin hmax
  have hratio :
      (if obsMax - obsMin > 0 then (obsMax - obsMin) / (obsMax - obsMin) else (1 : ℚ)) = 1 := by
    by_cases hpos : obsMax - obsMin > 0
    · rw [if_pos hpos]
      exact div_self (ne_of_gt hpos)
    · rw [if_neg hpos]
  have hscale : mkScale (s0 :: rest) {} = .ok
      { minimum := obsMin, maximum := obsMax, interval := obsMax - obsMin,
        offset := 3, height := obsMax - obsMin, ratioQ := 1,
        min2 := ⌊obsMin⌋, max2 := ⌈obsMax⌉, rows := ⌈obsMax⌉ - ⌊obsMin⌋,
        width := (s0 :: rest).foldl (fun a s => max a (s.length : ℤ)) 0 + 3 } := by
    unfold mkScale
    rw [hmin, hmax]
    simp only [Option.getD_none]
    rw [if_neg (not_lt.mpr hle), hratio, mul_one, mul_one]
  set p : ScaleParams :=
      { minimum := obsMin, maximum := obsMax, interval := obsMax - obsMin,
        offset := 3, height := obsMax - obsMin, ratioQ := 1,
        min2 := ⌊obsMin⌋, max2 := ⌈obsMax⌉, rows := ⌈obsMax⌉ - ⌊obsMin⌋,
        width := (s0 :: rest).foldl (fun a s => max a (s.length : ℤ)) 0 + 3 }
    with hpdef
  have hsc : ∀ v, 0 ≤ scaled p.minimum p.maximum p.ratioQ p.min2 v ∧
      scaled p.minimum p.maximum p.ratioQ p.min2 v ≤ p.rows := by
    intro v
    have h := scaled_bounds obsMin obsMax 1 hle (by norm_num) v
    rw [mul_one, mul_one] at h
    exact h
  have hrows0 : 0 ≤ p.rows := by
    have h := hsc obsMin
    omega
  have hwf1 : 1 ≤ (s0 :: rest).foldl (fun a s => max a (s.length : ℤ)) 0 := by
    have hmem : s0 ∈ s0 :: rest := List.mem_cons_self s0 rest
    have h := mem_le_wfold hmem 0
    have hpos : 0 < s0.length := List.length_pos.mpr h0
    omega
  have hnr : ((numRows p : ℕ) : ℤ) = p.rows + 1 := by
    unfold numRows
    omega
  have hnc : 4 ≤ ((p.width.toNat : ℕ) : ℤ) := by
    have : p.width = (s0 :: rest).foldl (fun a s => max a (s.length : ℤ)) 0 + 3 := rfl
    omega
  have hd0 : GridDims (emptyGrid p) (numRows p) p.width.toNat := emptyGrid_dims p
  have hoff : p.offset = 3 := rfl
  obtain ⟨g1, e1, d1⟩ := foldlM_ok_of_inv (fun g => GridDims g (numRows p) p.width.toNat)
    (axisStep (({} : Cfg).fmt?.getD defaultFormat) p)
    (intRange p.min2 (p.max2 + 1)) (emptyGrid p) hd0
    (by
      intro g' y hP hy
      rw [mem_intRange] at hy
      have hrows : p.max2 + 1 = p.min2 + p.rows + 1 := by
        show (⌈obsMax⌉ : ℤ) + 1 = ⌊obsMin⌋ + (⌈obsMax⌉ - ⌊obsMin⌋) + 1
        ring
      exact axisWrite_ok p y _ hP (by omega) (by omega) hoff hnc)
  have e1' : axisPass (({} : Cfg).fmt?.getD defaultFormat) p (emptyGrid p) = .ok g1 := e1
  obtain ⟨dh, dt, hs0⟩ : ∃ dh dt, s0 = dh :: dt := by
    cases s0 with
    | nil => exact absurd rfl h0
    | cons a t => exact ⟨a, t, rfl⟩
  subst hs0
  obtain ⟨g2, e2, d2⟩ := firstTick_ok dh dt rest
    (scaled p.minimum p.maximum p.ratioQ p.min2) p d1 hnr hsc hoff hnc
  obtain ⟨g3, e3, d3⟩ := foldlM_ok_of_inv (fun g => GridDims g (numRows p) p.width.toNat)
    (seriesStep ((dh :: dt) :: rest) [none] [some defaultSymbols]
      (scaled p.minimum p.maximum p.ratioQ p.min2) p)
    (List.range ((dh :: dt) :: rest).length) g2 d2
    (by
      intro g' i hP hi
      rw [List.mem_range] at hi
      refine seriesStep_default_ok ((dh :: dt) :: rest) _ p i hP hnr hsc hoff ?_ hi
      intro s hs
      have h := mem_le_wfold hs 0
      have : p.width = ((dh :: dt) :: rest).foldl (fun a s => max a (s.length : ℤ)) 0 + 3 := rfl
      omega)
  have e3' : seriesPass ((dh :: dt) :: rest) (({} : Cfg).colors?.getD [none])
      (({} : Cfg).symbols?.getD [some defaultSymbols])
      (scaled p.minimum p.maximum p.ratioQ p.min2) p g2 = .ok g3 := e3
  refine ⟨renderGrid g3, ?_⟩
  unfold plotMulti
  rw [hscale]
  rw [exceptBind_ok, e1', exceptBind_ok, e2, exceptBind_ok, e3', exceptBind_ok]

/-! ### Bridging lemmas between `plot` and its pieces -/

lemma plot_flat_of_not_allNaN (s : List F) (cfg : Cfg)
    (h : s.all (fun d => d.isNone) = false) :
    plot (.flat s) cfg = plotMulti [s] cfg := by
  have hne : s.length ≠ 0 := by
    intro h0
    rw [List.length_eq_zero] at h0
    subst h0
    simp at h
  simp only [plot]
  rw [if_neg hne, if_neg (by rw [h]; exact Bool.false_ne_true)]

lemma plot_flat_allNaN (s : List F) (cfg : Cfg)
    (h : s.all (fun d => d.isNone) = true) :
    plot (.flat s) cfg = .ok "" := by
  simp only [plot]
  by_cases h0 : s.length = 0
  · rw [if_pos h0]
  · rw [if_neg h0, if_pos h]

lemma plot_nested_ne_nil (ss : List (List F)) (cfg : Cfg) (h : ss ≠ []) :
    plot (.nested ss) cfg = plotMulti ss cfg := by
  simp only [plot]
  rw [if_neg (by simpa [List.length_eq_zero] using h)]

lemma flatFinite_singleton (s : List F) : flatFinite [s] = s.filterMap id := by
  unfold flatFinite
  simp

lemma flatFinite_ne_nil_of_not_allNaN (s : List F)
    (h : s.all (fun d => d.isNone) = false) : flatFinite [s] ≠ [] := by
  rw [flatFinite_singleton]
  rw [List.all_eq_false] at h
  obtain ⟨d, hd, hni⟩ := h
  cases d with
  | none => simp at hni
  | some v =>
      have : v ∈ s.filterMap id := by
        rw [List.mem_filterMap]
        exact ⟨some v, hd, rfl⟩
      exact List.ne_nil_of_mem this

lemma ne_nil_of_not_allNaN (s : List F)
    (h : s.all (fun d => d.isNone) = false) : s ≠ [] := by
  intro h0
  subst h0
  simp at h

/-! ### Error-path lemmas for `mkScale` and `plotMulti` -/

lemma mkScale_configError (series : List (List F)) (cfg : Cfg)
    {obsMin obsMax : ℚ}
    (hmin : listMin? (flatFinite series) = some obsMin)
    (hmax : listMax? (flatFinite series) = some obsMax)
    (hgt : cfg.max?.getD obsMax < cfg.min?.getD obsMin) :
    mkScale series cfg = .error .configurationError := by
  unfold mkScale
  rw [hmin, hmax]
  simp only [gt_iff_lt, hgt, if_true]

lemma mkScale_emptySeq (series : List (List F)) (cfg : Cfg)
    (h : flatFinite series = []) :
    mkScale series cfg = .error .valueErrorEmptySeq := by
  unfold mkScale
  rw [h]
  rfl

lemma plotMulti_configError (series : List (List F)) (cfg : Cfg)
    {obsMin obsMax : ℚ}
    (hmin : listMin? (flatFinite series) = some obsMin)
    (hmax : listMax? (flatFinite series) = some obsMax)
    (hgt : cfg.max?.getD obsMax < cfg.min?.getD obsMin) :
    plotMulti series cfg = .error .configurationError := by
  unfold plotMulti
  rw [mkScale_configError series cfg hmin hmax hgt, exceptBind_err]

lemma plotMulti_emptySeq (series : List (List F)) (cfg : Cfg)
    (h : flatFinite series = []) :
    plotMulti series cfg = .error .valueErrorEmptySeq := by
  unfold plotMulti
  rw [mkScale_emptySeq series cfg h, exceptBind_err]

/-! ### Lemmas about the `asciichart` post-processing -/

lemma fix_asciichart_noDot (lines : List String)
    (h : ∀ l ∈ lines, hasDot l = false) :
    fix_asciichart lines = .error .valueErrorMaxEmpty := by
  unfold fix_asciichart
  have hfil : lines.filter (fun l => hasDot l) = [] := by
    rw [List.filter_eq_nil_iff]
    intro a ha
    rw [h a ha]
    exact Bool.false_ne_true
  rw [hfil]
  rfl

lemma get_legendsymbol_cases (cfg : Cfg) (i : ℕ) :
    (∃ s, get_legendsymbol cfg i = .ok s) ∨
      get_legendsymbol cfg i = .error .indexError := by
  cases hsy : cfg.symbols? with
  | none => exact .inl ⟨"─", by simp only [get_legendsymbol, hsy]⟩
  | some symbols =>
      by_cases hi : i < symbols.length
      · cases hgd : symbols.getD i none with
        | none =>
            exact .inl ⟨"─", by simp only [get_legendsymbol, hsy, hgd, if_pos hi]⟩
        | some pal =>
            cases hh : pal.head? with
            | none =>
                exact .inr (by simp only [get_legendsymbol, hsy, hgd, hh, if_pos hi])
            | some g =>
                exact .inl ⟨g, by simp only [get_legendsymbol, hsy, hgd, hh, if_pos hi]⟩
      · exact .inl ⟨"─", by simp only [get_legendsymbol, hsy, if_neg hi]⟩

lemma legendLine_cases (cfg : Cfg) (i : ℕ) (t : String) :
    (∃ s, legendLine cfg i t = .ok s) ∨ legendLine cfg i t = .error .indexError := by
  unfold legendLine
  rcases get_legendsymbol_cases cfg i with ⟨s, hs⟩ | hs
  · rw [hs]
    exact .inl ⟨_, rfl⟩
  · rw [hs]
    exact .inr rfl

lemma mapM_legendLine_cases (cfg : Cfg) (l : List (ℕ × String)) :
    (∃ ll, l.mapM (fun pr => legendLine cfg pr.1 pr.2) = .ok ll) ∨
      l.mapM (fun pr => legendLine cfg pr.1 pr.2) = .error .indexError := by
  induction l with
  | nil => exact .inl ⟨[], rfl⟩
  | cons a t ih =>
      rw [List.mapM_cons]
      rcases legendLine_cases cfg a.1 a.2 with ⟨s, hs⟩ | hs
      · rw [hs]
        rcases ih with ⟨ll, hll⟩ | hll
        · rw [exceptBind_ok, hll]
          exact .inl ⟨s :: ll, rfl⟩
        · rw [exceptBind_ok, hll]
          exact .inr rfl
      · rw [hs]
        exact .inr rfl

lemma legendBlock_cases (cfg : Cfg) (legend : Option (List String)) (t : String) :
    (∃ s, legendBlock cfg legend t = .ok s) ∨
      legendBlock cfg legend t = .error .indexError := by
  cases legend with
  | none => exact .inl ⟨t, rfl⟩
  | some lg =>
      simp only [legendBlock]
      rcases mapM_legendLine_cases cfg lg.enum with ⟨ll, hll⟩ | hll
      · rw [hll, exceptBind_ok]
        exact .inl ⟨_, rfl⟩
      · rw [hll]
        exact .inr rfl

/-! ### Exact-location lemmas for single grid writes -/

lemma getCell_gridSet_self (g : Grid) (r c : ℤ) (v : String)
    (hr0 : 0 ≤ r) (hr1 : r < (g.length : ℤ)) (hc0 : 0 ≤ c)
    (hc1 : c < ((g.getD r.toNat []).length : ℤ)) :
    getCell (gridSet g r c v) r c = v := by
  unfold getCell gridSet
  rw [getD_set_self _ _ _ _ (by omega)]
  rw [getD_set_self _ _ _ _ (by omega)]

lemma getCell_gridSet_ne (g : Grid) (r c r' c' : ℤ) (v : String)
    (hr'0 : 0 ≤ r') (hc'0 : 0 ≤ c') (hr0 : 0 ≤ r) (hc0 : 0 ≤ c)
    (hne : ¬(r' = r ∧ c' = c)) :
    getCell (gridSet g r c v) r' c' = getCell g r' c' := by
  unfold getCell gridSet
  by_cases hrr : r' = r
  · subst hrr
    have hcc : c' ≠ c := fun h => hne ⟨rfl, h⟩
    by_cases hlt : r'.toNat < g.length
    · rw [getD_set_self _ _ _ _ hlt, getD_set_ne _ _ _ _ _ (by omega)]
    · rw [set_oob _ _ _ (by omega)]
  · rw [getD_set_ne _ _ _ _ _ (by omega)]

/-- Inversion of a successful `mkScale`: how the scale parameters of
lines 241-260 relate to each other. -/
lemma mkScale_inv {series : List (List F)} {cfg : Cfg} {p : ScaleParams}
    (h : mkScale series cfg = .ok p) :
    p.minimum ≤ p.maximum ∧
    p.interval = p.maximum - p.minimum ∧
    p.offset = cfg.offset?.getD 3 ∧
    p.height = cfg.height?.getD p.interval ∧
    p.ratioQ = (if p.interval > 0 then p.height / p.interval else 1) ∧
    p.min2 = ⌊p.minimum * p.ratioQ⌋ ∧
    p.max2 = ⌈p.maximum * p.ratioQ⌉ ∧
    p.rows = p.max2 - p.min2 := by
  unfold mkScale at h
  cases hmin : listMin? (flatFinite series) with
  | none =>
      rw [hmin] at h
      cases hmax : listMax? (flatFinite series) with
      | none => rw [hmax] at h; simp at h
      | some obsMax => rw [hmax] at h; simp at h
  | some obsMin =>
      rw [hmin] at h
      cases hmax : listMax? (flatFinite series) with
      | none => rw [hmax] at h; simp at h
      | some obsMax =>
          rw [hmax] at h
          simp only [] at h
          by_cases hgt : cfg.min?.getD obsMin > cfg.max?.getD obsMax
          · rw [if_pos hgt] at h
            simp at h
          · rw [if_neg hgt] at h
            rw [Except.ok.injEq] at h
            subst h
            exact ⟨not_lt.mp hgt, rfl, rfl, rfl, rfl, rfl, rfl, rfl⟩

/-- `fix_asciichart` either succeeds or raises the empty-`max` `ValueError`. -/
lemma fix_asciichart_cases (lines : List String) :
    (∃ s, fix_asciichart lines = .ok s) ∨
      fix_asciichart lines = .error .valueErrorMaxEmpty := by
  unfold fix_asciichart
  cases listMax? ((lines.filter (fun l => hasDot l)).map dotIndex) with
  | none => exact .inr rfl
  | some dotidx => exact .inl ⟨_, rfl⟩

/-! ## The claims -/

/-- C1 (counterexample): for the series `[1,2,3,4,NaN,4,3,2,1]` with default
configuration, the data column `x` occupies character `11 + x` of an output
line (9 label characters, one blank cell, the tick column).  The claim places
the leading-edge glyph at index 5, but character `11 + 5` of the top line holds
the corner glyph `╮`; the leading-edge glyph `╶` is at index 4 (the NaN's own
column) and the trailing-edge glyph `╴` at index 3. -/
theorem C1_counterexample :
    plot (.flat [some 1, some 2, some 3, some 4, none, some 4, some 3, some 2, some 1]) {} =
      .ok "    4.00  ┤  ╭╴╶╮\n    3.00  ┤ ╭╯  ╰╮\n    2.00  ┤╭╯    ╰╮\n    1.00  ┼╯      ╰" ∧
    (pySplitNl "    4.00  ┤  ╭╴╶╮\n    3.00  ┤ ╭╯  ╰╮\n    2.00  ┤╭╯    ╰╮\n    1.00  ┼╯      ╰").getD 0 "" =
      "    4.00  ┤  ╭╴╶╮" ∧
    "    4.00  ┤  ╭╴╶╮".toList.getD (11 + 5) ' ' = '╮' ∧
    "    4.00  ┤  ╭╴╶╮".toList.getD (11 + 4) ' ' = '╶' ∧
    "    4.00  ┤  ╭╴╶╮".toList.getD (11 + 3) ' ' = '╴' ∧
    ('╮' : Char) ≠ '╶' := by
  refine ⟨by with_unfolding_all rfl, by decide, by decide, by decide, by decide, by decide⟩

/-- C1 (amended): in `plot`'s adjacent-pair loop, when the left sample is NaN
and the right sample finite, the leading-edge glyph `symbols[2]` is written at
the right sample's quantized row but in column `x + offset` — the left (NaN)
sample's column, not `x + 1 + offset` — and no other cell changes;
symmetrically, when the right sample is NaN, the trailing-edge glyph
`symbols[3]` goes to the left sample's row in the same column `x + offset`. -/
theorem C1_amended (symbols : List String) (color : Option String) (sc : ℚ → ℤ)
    (rows offset : ℤ) (x : ℕ) (v : ℚ) (g : Grid) (s2 s3 : String)
    (h2 : symbols.get? 2 = some s2) (h3 : symbols.get? 3 = some s3)
    (hr0 : 0 ≤ rows - sc v) (hr1 : rows - sc v < (g.length : ℤ))
    (hc0 : 0 ≤ (x : ℤ) + offset)
    (hc1 : (x : ℤ) + offset < ((g.getD (rows - sc v).toNat []).length : ℤ)) :
    drawPair symbols color sc rows offset x none (some v) g =
      .ok (gridSet g (rows - sc v) ((x : ℤ) + offset) (colored s2 color)) ∧
    drawPair symbols color sc rows offset x (some v) none g =
      .ok (gridSet g (rows - sc v) ((x : ℤ) + offset) (colored s3 color)) ∧
    getCell (gridSet g (rows - sc v) ((x : ℤ) + offset) (colored s2 color))
      (rows - sc v) ((x : ℤ) + offset) = colored s2 color ∧
    ∀ r c : ℤ, 0 ≤ r → 0 ≤ c → ¬(r = rows - sc v ∧ c = (x : ℤ) + offset) →
      getCell (gridSet g (rows - sc v) ((x : ℤ) + offset) (colored s2 color)) r c =
        getCell g r c := by
  have hpg2 : pyGet symbols 2 = .ok s2 := by unfold pyGet; rw [h2]
  have hpg3 : pyGet symbols 3 = .ok s3 := by unfold pyGet; rw [h3]
  refine ⟨?_, ?_, getCell_gridSet_self g _ _ _ hr0 hr1 hc0 hc1,
    fun r c hr hc hne => getCell_gridSet_ne g _ _ r c _ hr hc hr0 hc0 hne⟩
  · show (pyGet symbols 2 >>= fun s =>
      pySet2 g (rows - sc v) ((x : ℤ) + offset) (colored s color)) = _
    rw [hpg2, exceptBind_ok]
    exact pySet2_eq_gridSet g _ _ _ hr0 hr1 hc0 hc1
  · show (pyGet symbols 3 >>= fun s =>
      pySet2 g (rows - sc v) ((x : ℤ) + offset) (colored s color)) = _
    rw [hpg3, exceptBind_ok]
    exact pySet2_eq_gridSet g _ _ _ hr0 hr1 hc0 hc1

/-- C1 (witness): the amended statement at a concrete 2-by-4 grid: both edge
glyphs land in column `0 + 3` (the left sample's column). -/
theorem C1_amended_witness :
    defaultSymbols.get? 2 = some "╶" ∧ defaultSymbols.get? 3 = some "╴" ∧
    drawPair defaultSymbols none (fun _ => 0) 1 3 0 none (some 0)
      [[" ", " ", " ", " "], [" ", " ", " ", " "]] =
      .ok [[" ", " ", " ", " "], [" ", " ", " ", "╶"]] ∧
    drawPair defaultSymbols none (fun _ => 0) 1 3 0 (some 0) none
      [[" ", " ", " ", " "], [" ", " ", " ", " "]] =
      .ok [[" ", " ", " ", " "], [" ", " ", " ", "╴"]] := by
  have h := C1_amended defaultSymbols none (fun _ => 0) 1 3 0 0
    [[" ", " ", " ", " "], [" ", " ", " ", " "]] "╶" "╴" rfl rfl
    (by decide) (by decide) (by decide) (by decide)
  exact ⟨rfl, rfl, h.1.trans (by decide), h.2.1.trans (by decide)⟩

/-- C2 (counterexample): with `min = 5 > 1 = max` in the configuration, the
empty input and the all-NaN flat series return `''` from the early returns of
lines 219-224 and never reach the `min > max` check, so no configuration
error is raised. -/
theorem C2_counterexample :
    plot (.flat []) { min? := some 5, max? := some 1 } = .ok "" ∧
    plot (.flat [none]) { min? := some 5, max? := some 1 } = .ok "" ∧
    (Except.ok "" : Except Err String) ≠ .error .configurationError := by
  exact ⟨rfl, rfl, by decide⟩

/-- C2 (amended): the configuration error is raised exactly by the inputs that
reach line 238: a flat series that is not all NaN, or a non-empty list of
series whose samples include a finite value (so that the eager
`min(filter(...))` default of line 232 does not raise first), whenever the
effective minimum exceeds the effective maximum — regardless of every other
parameter.  The empty input and the all-NaN flat series instead return `''`. -/
theorem C2_amended (cfg : Cfg) :
    (∀ (s : List F) (obsMin obsMax : ℚ),
      s.all (fun d => d.isNone) = false →
      listMin? (flatFinite [s]) = some obsMin →
      listMax? (flatFinite [s]) = some obsMax →
      cfg.max?.getD obsMax < cfg.min?.getD obsMin →
      plot (.flat s) cfg = .error .configurationError) ∧
    (∀ (ss : List (List F)) (obsMin obsMax : ℚ),
      ss ≠ [] →
      listMin? (flatFinite ss) = some obsMin →
      listMax? (flatFinite ss) = some obsMax →
      cfg.max?.getD obsMax < cfg.min?.getD obsMin →
      plot (.nested ss) cfg = .error .configurationError) ∧
    plot (.flat []) cfg = .ok "" ∧
    (∀ s : List F, s.all (fun d => d.isNone) = true → plot (.flat s) cfg = .ok "") := by
  refine ⟨?_, ?_, rfl, fun s h => plot_flat_allNaN s cfg h⟩
  · intro s obsMin obsMax hall hmin hmax hgt
    rw [plot_flat_of_not_allNaN s cfg hall]
    exact plotMulti_configError [s] cfg hmin hmax hgt
  · intro ss obsMin obsMax hne hmin hmax hgt
    rw [plot_nested_ne_nil ss cfg hne]
    exact plotMulti_configError ss cfg hmin hmax hgt

/-- C2 (witness): the amended statement at the flat series `[0]` with
`min = 5 > 1 = max`: the configuration error is raised. -/
theorem C2_amended_witness :
    ([some (0 : ℚ)] : List F).all (fun d => d.isNone) = false ∧
    listMin? (flatFinite [[some (0 : ℚ)]]) = some 0 ∧
    listMax? (flatFinite [[some (0 : ℚ)]]) = some 0 ∧
    ({ min? := some 5, max? := some 1 } : Cfg).max?.getD 0 <
      ({ min? := some 5, max? := some 1 } : Cfg).min?.getD 0 ∧
    plot (.flat [some 0]) { min? := some 5, max? := some 1 } =
      .error .configurationError := by
  refine ⟨by decide, by with_unfolding_all rfl, by with_unfolding_all rfl,
    by with_unfolding_all decide, ?_⟩
  exact (C2_amended { min? := some 5, max? := some 1 }).1 [some 0] 0 0
    (by decide) (by with_unfolding_all rfl) (by with_unfolding_all rfl)
    (by with_unfolding_all decide)

/-- C3 (counterexample): an all-NaN series passed as one element of a list of
series raises: the eagerly evaluated `min(filter(_isnum, ...))` default of
line 232 is `min` of an empty sequence, a `ValueError` — the input does not
return a defined string. -/
theorem C3_counterexample :
    plot (.nested [[none]]) {} = .error .valueErrorEmptySeq := by
  with_unfolding_all rfl

/-- C3 (amended): the empty input and the all-NaN flat series return `''`
under every configuration; under the default configuration `plot` returns a
string for every flat series and for every list of series whose first series
is non-empty and that contains a finite sample; but a list of series with no
finite sample (such as `[[NaN]]`) raises the empty-sequence `ValueError`. -/
theorem C3_amended :
    (∀ cfg : Cfg, plot (.flat []) cfg = .ok "" ∧ plot (.nested []) cfg = .ok "") ∧
    (∀ (cfg : Cfg) (s : List F), s.all (fun d => d.isNone) = true →
      plot (.flat s) cfg = .ok "") ∧
    (∀ s : List F, s.all (fun d => d.isNone) = false →
      ∃ t, plot (.flat s) {} = .ok t) ∧
    (∀ (s0 : List F) (rest : List (List F)), s0 ≠ [] →
      flatFinite (s0 :: rest) ≠ [] →
      ∃ t, plot (.nested (s0 :: rest)) {} = .ok t) ∧
    (∀ ss : List (List F), ss ≠ [] → flatFinite ss = [] →
      plot (.nested ss) {} = .error .valueErrorEmptySeq) := by
  refine ⟨fun cfg => ⟨rfl, rfl⟩, fun cfg s h => plot_flat_allNaN s cfg h, ?_, ?_, ?_⟩
  · intro s h
    rw [plot_flat_of_not_allNaN s {} h]
    exact plotMulti_default_ok s [] (ne_nil_of_not_allNaN s h)
      (flatFinite_ne_nil_of_not_allNaN s h)
  · intro s0 rest h0 hfin
    rw [plot_nested_ne_nil _ {} (by simp)]
    exact plotMulti_default_ok s0 rest h0 hfin
  · intro ss hne hf
    rw [plot_nested_ne_nil ss {} hne]
    exact plotMulti_emptySeq ss {} hf

/-- C3 (witness): the amended statement at concrete inputs: a flat series with
a gap succeeds, a two-series input with one empty series succeeds, and the
nested all-NaN input raises. -/
theorem C3_amended_witness :
    ([some (1 : ℚ), none] : List F).all (fun d => d.isNone) = false ∧
    (∃ t, plot (.flat [some 1, none]) {} = .ok t) ∧
    ([some (2 : ℚ)] : List F) ≠ [] ∧ flatFinite [[some (2 : ℚ)], []] ≠ [] ∧
    (∃ t, plot (.nested [[some 2], []]) {} = .ok t) ∧
    ([[none]] : List (List F)) ≠ [] ∧ flatFinite [[none]] = [] ∧
    plot (.nested [[none]]) {} = .error .valueErrorEmptySeq := by
  refine ⟨by decide, C3_amended.2.2.1 [some 1, none] (by decide),
    by decide, by with_unfolding_all decide,
    C3_amended.2.2.2.1 [some 2] [[]] (by decide) (by with_unfolding_all decide),
    by decide, by with_unfolding_all rfl,
    C3_amended.2.2.2.2 [[none]] (by decide) (by with_unfolding_all rfl)⟩

/-- C4 (counterexample): `plot([2.5, 2.5]ish)` — here the length-1 series
`[5/2]` — has effective `min = max = 5/2`, ratio 1, yet renders two data rows
(`min2 = 2`, `max2 = 3`, `rows = 1`), so "exactly one data row" fails for a
non-integer common value. -/
theorem C4_counterexample :
    mkScale [[some (5/2 : ℚ)]] {} = .ok ⟨5/2, 5/2, 0, 3, 0, 1, 2, 3, 1, 4⟩ ∧
    plot (.flat [some (5/2 : ℚ)]) {} = .ok "    2.50  ┤\n    2.50  ┼" ∧
    (pySplitNl "    2.50  ┤\n    2.50  ┼").length = 2 ∧ (2 : ℕ) ≠ 1 := by
  exact ⟨by with_unfolding_all rfl, by with_unfolding_all rfl, by decide, by decide⟩

/-- C4 (amended): when the effective minimum and maximum both equal `v`, the
ratio defaults to 1 and the grid has `⌈v⌉ - ⌊v⌋ + 1` rows — exactly one data
row precisely when `v` is an integer. -/
theorem C4_amended (series : List (List F)) (cfg : Cfg) (p : ScaleParams) (v : ℚ)
    (h : mkScale series cfg = .ok p) (hminv : p.minimum = v) (hmaxv : p.maximum = v) :
    p.ratioQ = 1 ∧ p.rows = ⌈v⌉ - ⌊v⌋ ∧
    numRows p = (⌈v⌉ - ⌊v⌋ + 1).toNat ∧
    (v = (⌊v⌋ : ℚ) → numRows p = 1) := by
  obtain ⟨hle, hint, hoff, hh, hrq, hm2, hx2, hrows⟩ := mkScale_inv h
  have hint0 : p.interval = 0 := by rw [hint, hminv, hmaxv]; ring
  have hrq1 : p.ratioQ = 1 := by
    rw [hrq, hint0]
    norm_num
  have hm2' : p.min2 = ⌊v⌋ := by rw [hm2, hrq1, hminv, mul_one]
  have hx2' : p.max2 = ⌈v⌉ := by rw [hx2, hrq1, hmaxv, mul_one]
  have hrows' : p.rows = ⌈v⌉ - ⌊v⌋ := by rw [hrows, hm2', hx2']
  refine ⟨hrq1, hrows', by unfold numRows; rw [hrows'], ?_⟩
  intro hv
  have hc : ⌈v⌉ = ⌊v⌋ := by
    rw [hv]
    simp
  unfold numRows
  rw [hrows', hc]
  omega

/-- C4 (witness): the amended statement at the series `[1]` (integer common
value): one data row. -/
theorem C4_amended_witness :
    mkScale [[some (1 : ℚ)]] {} = .ok ⟨1, 1, 0, 3, 0, 1, 1, 1, 0, 4⟩ ∧
    (⟨1, 1, 0, 3, 0, 1, 1, 1, 0, 4⟩ : ScaleParams).ratioQ = 1 ∧
    numRows ⟨1, 1, 0, 3, 0, 1, 1, 1, 0, 4⟩ = 1 := by
  have h := C4_amended [[some (1 : ℚ)]] {} ⟨1, 1, 0, 3, 0, 1, 1, 1, 0, 4⟩ 1
    (by with_unfolding_all rfl) rfl rfl
  exact ⟨by with_unfolding_all rfl, h.1, h.2.2.2 (by norm_num)⟩

/-- C5 (confirmed): `scaled` maps a sample by clamping to `[min, max]`,
multiplying by the ratio, rounding to the nearest integer (the host's round
half to even, `pyround`), and subtracting `min2 = ⌊min * ratio⌋`; hence all
samples at or below the minimum quantize like the minimum, and all samples at
or above the maximum like the maximum. -/
theorem C5_scaling (series : List (List F)) (cfg : Cfg) (p : ScaleParams)
    (h : mkScale series cfg = .ok p) :
    p.min2 = ⌊p.minimum * p.ratioQ⌋ ∧
    (∀ y : ℚ, scaled p.minimum p.maximum p.ratioQ p.min2 y =
      pyround (min (max y p.minimum) p.maximum * p.ratioQ) - ⌊p.minimum * p.ratioQ⌋) ∧
    (∀ y : ℚ, y ≤ p.minimum →
      scaled p.minimum p.maximum p.ratioQ p.min2 y =
        scaled p.minimum p.maximum p.ratioQ p.min2 p.minimum) ∧
    (∀ y : ℚ, p.maximum ≤ y →
      scaled p.minimum p.maximum p.ratioQ p.min2 y =
        scaled p.minimum p.maximum p.ratioQ p.min2 p.maximum) := by
  obtain ⟨hle, hint, hoff, hh, hrq, hm2, hx2, hrows⟩ := mkScale_inv h
  refine ⟨hm2, ?_, ?_, ?_⟩
  · intro y
    unfold scaled clamp
    rw [hm2]
  · intro y hy
    unfold scaled
    rw [clamp_of_le _ _ _ hle hy, clamp_of_le _ _ _ hle (le_refl _)]
  · intro y hy
    unfold scaled
    rw [clamp_of_ge _ _ _ hle hy, clamp_of_ge _ _ _ hle (le_refl _)]

/-- C5 (witness): with `min = 2, max = 3` on `[1,2,3,4,NaN,4,3,2,1]` the values
1 and 4 quantize to the same rows as 2 and 3. -/
theorem C5_scaling_witness :
    mkScale [[some 1, some 2, some 3, some 4, none, some 4, some 3, some 2, some 1]]
      { min? := some 2, max? := some 3 } = .ok ⟨2, 3, 1, 3, 1, 1, 2, 3, 1, 12⟩ ∧
    scaled 2 3 1 2 1 = scaled 2 3 1 2 2 ∧
    scaled 2 3 1 2 4 = scaled 2 3 1 2 3 ∧
    (⟨2, 3, 1, 3, 1, 1, 2, 3, 1, 12⟩ : ScaleParams).min2 =
      ⌊(⟨2, 3, 1, 3, 1, 1, 2, 3, 1, 12⟩ : ScaleParams).minimum *
        (⟨2, 3, 1, 3, 1, 1, 2, 3, 1, 12⟩ : ScaleParams).ratioQ⌋ := by
  have h := C5_scaling
    [[some 1, some 2, some 3, some 4, none, some 4, some 3, some 2, some 1]]
    { min? := some 2, max? := some 3 } ⟨2, 3, 1, 3, 1, 1, 2, 3, 1, 12⟩
    (by with_unfolding_all rfl)
  exact ⟨by with_unfolding_all rfl, h.2.2.1 1 (by norm_num),
    h.2.2.2 4 (by norm_num), h.1⟩

/-- C6 (counterexample): ten constant samples `5.0` with `height = 1`,
`min = 0`, `max = 10` produce the flat glyph only in data columns 0-8 (the
nine adjacent pairs draw at the left sample's column); data column 9
(character `11 + 9` of either row) is blank, so "all 10 data columns" fails. -/
theorem C6_counterexample :
    plot (.flat (List.replicate 10 (some 5)))
      { min? := some 0, max? := some 10, height? := some 1 } =
      .ok "   10.00  ┼\n    0.00  ┼─────────" ∧
    "    0.00  ┼─────────".toList.getD (11 + 9) ' ' = ' ' ∧
    "   10.00  ┼".toList.getD (11 + 9) ' ' = ' ' ∧
    (' ' : Char) ≠ '─' :=
  ⟨by with_unfolding_all rfl, by decide, by decide, by decide⟩

/-- C6 (amended): the same render puts the flat-run glyph in data columns 0-8
of the bottom row; value 5 quantizes (round half to even on `0.5`) to the row
labelled `0.00`. -/
theorem C6_amended :
    plot (.flat (List.replicate 10 (some 5)))
      { min? := some 0, max? := some 10, height? := some 1 } =
      .ok "   10.00  ┼\n    0.00  ┼─────────" ∧
    (pySplitNl "   10.00  ┼\n    0.00  ┼─────────").getD 1 "" = "    0.00  ┼─────────" ∧
    "    0.00  ┼─────────".toList.drop 11 = List.replicate 9 '─' :=
  ⟨by with_unfolding_all rfl, by decide, by decide⟩

/-- C7 (counterexample): the configuration requests an explicit height (9), yet
`asciichart` with `maxlines = 5` still raises the too-tall error — the check
of lines 74-75 does not depend on whether a height was requested. -/
theorem C7_counterexample :
    asciichart (.flat [some 0, some 9]) (some { height? := some 9 }) 5 none 0 =
      .error .chartTooTall ∧
    ({ height? := some 9 } : Cfg).height? ≠ none := by
  exact ⟨by with_unfolding_all rfl, by simp⟩

/-- C7 (amended): `asciichart` fails with the too-tall error if and only if the
line count of `plot`'s output exceeds `maxlines` — regardless of whether a
height was explicitly configured.  (No later stage can produce this error: the
dot-alignment step raises the empty-`max` error and the legend step an
IndexError.) -/
theorem C7_amended (sequences : SeriesInput) (cfg? : Option Cfg) (maxlines : ℕ)
    (legend : Option (List String)) (indent : ℕ) (text : String)
    (hplot : plot (convertSequences sequences).1 (cfg?.getD {}) = .ok text) :
    (asciichart sequences cfg? maxlines legend indent = .error .chartTooTall ↔
      maxlines < (pySplitNl text).length) := by
  unfold asciichart
  rw [hplot, exceptBind_ok]
  by_cases hlen : (pySplitNl text).length > maxlines
  · rw [if_pos hlen]
    exact ⟨fun _ => hlen, fun _ => rfl⟩
  · rw [if_neg hlen]
    constructor
    · intro hcontra
      exfalso
      rcases fix_asciichart_cases (pySplitNl text) with ⟨s, hs⟩ | hs
      · rw [hs, exceptBind_ok] at hcontra
        rcases legendBlock_cases (cfg?.getD {}) legend s with ⟨s2, hs2⟩ | hs2
        · rw [hs2, exceptBind_ok] at hcontra
          exact Except.noConfusion hcontra
        · rw [hs2, exceptBind_err] at hcontra
          simp at hcontra
      · rw [hs, exceptBind_err] at hcontra
        simp at hcontra
    · intro h
      exact absurd h hlen

/-- C7 (witness): the amended statement at the 2-point series `[0, 9]` with an
explicit height of 9: ten output lines exceed `maxlines = 5`, so the too-tall
error is raised even though a height was configured. -/
theorem C7_amended_witness :
    plot (convertSequences (.flat [some 0, some 9])).1
      ((some { height? := some 9 } : Option Cfg).getD {}) =
      .ok "    9.00  ┼╭\n    8.00  ┤│\n    7.00  ┤│\n    6.00  ┤│\n    5.00  ┤│\n    4.00  ┤│\n    3.00  ┤│\n    2.00  ┤│\n    1.00  ┤│\n    0.00  ┼╯" ∧
    5 < (pySplitNl "    9.00  ┼╭\n    8.00  ┤│\n    7.00  ┤│\n    6.00  ┤│\n    5.00  ┤│\n    4.00  ┤│\n    3.00  ┤│\n    2.00  ┤│\n    1.00  ┤│\n    0.00  ┼╯").length ∧
    (asciichart (.flat [some 0, some 9]) (some { height? := some 9 }) 5 none 0 =
        .error .chartTooTall ↔
      5 < (pySplitNl "    9.00  ┼╭\n    8.00  ┤│\n    7.00  ┤│\n    6.00  ┤│\n    5.00  ┤│\n    4.00  ┤│\n    3.00  ┤│\n    2.00  ┤│\n    1.00  ┤│\n    0.00  ┼╯").length) := by
  refine ⟨by with_unfolding_all rfl, by decide,
    C7_amended (.flat [some 0, some 9]) (some { height? := some 9 }) 5 none 0 _
      (by with_unfolding_all rfl)⟩

/-- C8 (counterexample): `asciichart` on a list of two series executes two
`sequences[i] = list(sequences[i])` assignments on the caller's list
(lines 67-69), so the elements are replaced — the write count is 2, not 0. -/
theorem C8_counterexample :
    asciichartSeqWrites (.nested [[some 1], [some 2]]) = 2 ∧ (2 : ℕ) ≠ 0 :=
  ⟨rfl, by decide⟩

/-- C8 (amended): in value semantics the caller's sequences keep exactly the
same contents (`list(x)` copies), but for a non-empty list of series each of
its elements is reassigned in place — `len(sequences)` element writes; a flat
sequence of numbers is left untouched. -/
theorem C8_amended (sequences : SeriesInput) :
    asciichartSeqsAfter sequences = sequences ∧
    (∀ ss : List (List F), sequences = .nested ss → ss ≠ [] →
      asciichartSeqWrites sequences = ss.length) ∧
    (∀ s : List F, sequences = .flat s → asciichartSeqWrites sequences = 0) := by
  refine ⟨?_, ?_, ?_⟩
  · cases sequences with
    | flat s => rfl
    | nested ss =>
        simp only [asciichartSeqsAfter, convertSequences]
        by_cases h : ss.length > 0
        · rw [if_pos h]
          simp
        · rw [if_neg h]
  · intro ss heq hne
    subst heq
    simp only [asciichartSeqWrites, convertSequences]
    rw [if_pos (by simpa [List.length_pos] using hne)]
  · intro s heq
    subst heq
    rfl

/-- C8 (witness): the amended statement at a concrete list of two series and at
a flat series. -/
theorem C8_amended_witness :
    asciichartSeqsAfter (.nested [[some 1], [some 2]]) = .nested [[some 1], [some 2]] ∧
    asciichartSeqWrites (.nested [[some 1], [some 2]]) = 2 ∧
    asciichartSeqsAfter (.flat [some 1]) = .flat [some 1] ∧
    asciichartSeqWrites (.flat [some 1]) = 0 := by
  refine ⟨(C8_amended _).1, ?_, (C8_amended _).1,
    (C8_amended (.flat [some 1])).2.2 [some 1] rfl⟩
  have h := (C8_amended (.nested [[some 1], [some 2]])).2.1 [[some 1], [some 2]]
    rfl (by decide)
  simpa using h

/-- C9 (confirmed): when `plot` succeeds with a non-empty text none of whose
lines contains a dot (for instance under the `8.0f` label format), and the
line count is within `maxlines`, `asciichart` raises the unhandled
`max()`-of-empty-sequence `ValueError` from `fix_asciichart` instead of
returning the chart. -/
theorem C9_noDotRaises (sequences : SeriesInput) (cfg? : Option Cfg) (maxlines : ℕ)
    (legend : Option (List String)) (indent : ℕ) (text : String)
    (hplot : plot (convertSequences sequences).1 (cfg?.getD {}) = .ok text)
    (hne : text ≠ "")
    (hnodot : ∀ l ∈ pySplitNl text, hasDot l = false)
    (hlen : ¬((pySplitNl text).length > maxlines)) :
    asciichart sequences cfg? maxlines legend indent = .error .valueErrorMaxEmpty := by
  unfold asciichart
  rw [hplot, exceptBind_ok, if_neg hlen, fix_asciichart_noDot _ hnodot, exceptBind_err]

/-- C9 (witness): the series `[0, 1]` with the dot-free `8.0f` label format:
`plot` yields two dot-free lines and `asciichart` raises. -/
theorem C9_noDotRaises_witness :
    plot (convertSequences (.flat [some 0, some 1])).1
      ((some { fmt? := some fmtNoDot } : Option Cfg).getD {}) =
      .ok "       1 ┼╭\n       0 ┼╯" ∧
    ("       1 ┼╭\n       0 ┼╯" : String) ≠ "" ∧
    (∀ l ∈ pySplitNl "       1 ┼╭\n       0 ┼╯", hasDot l = false) ∧
    ¬((pySplitNl "       1 ┼╭\n       0 ┼╯").length > 100) ∧
    asciichart (.flat [some 0, some 1]) (some { fmt? := some fmtNoDot }) 100 none 0 =
      .error .valueErrorMaxEmpty := by
  refine ⟨by with_unfolding_all rfl, by decide, by decide, by decide, ?_⟩
  exact C9_noDotRaises (.flat [some 0, some 1]) (some { fmt? := some fmtNoDot })
    100 none 0 "       1 ┼╭\n       0 ┼╯" (by with_unfolding_all rfl) (by decide)
    (by decide) (by decide)

/-- C10 (confirmed): the symbol set of series `i` is `symbolss[i % len(symbolss)]`
(modulo cycling, exactly as `colors[i % len(colors)]`), the index is always in
range for a non-empty list, and an entry of `None` selects the default
ten-glyph palette. -/
theorem C10_symbolCycling (symbolss : List (Option (List String)))
    (colors : List (Option String)) (i : ℕ)
    (hs : symbolss ≠ []) (hc : colors ≠ []) :
    seriesSymbols symbolss i = seriesSymbols symbolss (i % symbolss.length) ∧
    pyModGet colors i = pyModGet colors (i % colors.length) ∧
    (∃ e, symbolss.get? (i % symbolss.length) = some e) ∧
    (∃ e, colors.get? (i % colors.length) = some e) ∧
    (symbolss.get? (i % symbolss.length) = some none →
      seriesSymbols symbolss i = .ok defaultSymbols) ∧
    (∀ pal, symbolss.get? (i % symbolss.length) = some (some pal) →
      seriesSymbols symbolss i = .ok pal) := by
  have hmm : i % symbolss.length % symbolss.length = i % symbolss.length :=
    Nat.mod_mod_of_dvd i dvd_rfl
  have hmc : i % colors.length % colors.length = i % colors.length :=
    Nat.mod_mod_of_dvd i dvd_rfl
  have hslen : 0 < symbolss.length := List.length_pos.mpr hs
  have hclen : 0 < colors.length := List.length_pos.mpr hc
  refine ⟨?_, ?_, ?_, ?_, ?_, ?_⟩
  · unfold seriesSymbols pyModGet
    rw [hmm]
  · unfold pyModGet
    rw [hmc]
  · exact ⟨_, List.get?_eq_get (Nat.mod_lt i hslen)⟩
  · exact ⟨_, List.get?_eq_get (Nat.mod_lt i hclen)⟩
  · intro h
    unfold seriesSymbols pyModGet
    rw [h]
  · intro pal h
    unfold seriesSymbols pyModGet
    rw [h]

/-- C10 (witness): two symbol sets, three series: series 3 cycles back to entry
`3 % 2 = 1`, which is `None`, so the default palette is used. -/
theorem C10_symbolCycling_witness :
    ([some defaultSymbols, none] : List (Option (List String))) ≠ [] ∧
    ([none] : List (Option String)) ≠ [] ∧
    seriesSymbols [some defaultSymbols, none] 3 =
      seriesSymbols [some defaultSymbols, none] (3 % 2) ∧
    ([some defaultSymbols, none] : List (Option (List String))).get? (3 % 2) =
      some none ∧
    seriesSymbols [some defaultSymbols, none] 3 = .ok defaultSymbols := by
  have h := C10_symbolCycling [some defaultSymbols, none] [none] 3
    (by decide) (by decide)
  exact ⟨by decide, by decide, h.1, by decide, h.2.2.2.2.1 (by decide)⟩
